import Mathlib

/-!
Verification development for the `pulsar-punctual` tempo-synchronization
core (`src/lib/sonic/tempo-sync.js` and `src/lib/sonic/osc-service.js`).

Numeric values are embedded as exact rationals (`ℚ`), the idealized real
arithmetic the specification reasons in; JavaScript doubles that are exactly
representable (0.5, 1/64, 2^32, 2208988800, ...) coincide with their rational
embedding.  Non-finite doubles (NaN, ±Infinity) are represented by dedicated
constructors where the source distinguishes them.
-/

namespace PulsarPunctual

/-- JavaScript truncation toward zero (`Math.trunc`, and the truncation
underlying the `%` operator), on exact rationals. -/
def jsTrunc (q : ℚ) : ℤ :=
  if 0 ≤ q then ⌊q⌋ else ⌈q⌉

/-- JavaScript remainder operator `x % y` on finite doubles: the remainder
keeps the sign of the dividend, `x % y = x - y * trunc (x / y)`. -/
def jsMod (x y : ℚ) : ℚ :=
  x - y * (jsTrunc (x / y) : ℚ)

/-- Wrap into a half-cycle window, exactly as written twice in
`tempo-sync.js` (lines 157–158 for the phase drift, line 224 for the lead
offset): `d = ((d % 1) + 1) % 1; if (d > 0.5) d -= 1`. -/
def phaseWrap (d : ℚ) : ℚ :=
  let r := jsMod (jsMod d 1 + 1) 1
  if 1/2 < r then r - 1 else r

/-- JavaScript `Math.round`: half-way cases round toward positive infinity,
so `Math.round x = ⌊x + 1/2⌋`. -/
def jsRound (q : ℚ) : ℤ :=
  ⌊q + 1/2⌋

/-- JavaScript unsigned right shift by zero (`x >>> 0`, ToUint32) applied to
a finite number: truncate toward zero, then reduce modulo 2^32 into
`[0, 2^32)`. -/
def jsToUint32 (q : ℚ) : ℤ :=
  jsTrunc q % 4294967296

/-- Model of the JavaScript values fed to `timeTagToPosixSeconds`.
Strings carry their emptiness (their truthiness) and the result of the
JavaScript builtin `Number()` parse, `none` standing for NaN; `vRaw`
models an object `{raw: [a, b]}` whose first two array entries are finite
numbers; `vSecFrac` models `{seconds, fractions}` with finite number
fields; `vOther` covers every other (truthy) value: booleans, arrays of
length below two under `raw`, objects of other shapes. -/
inductive TimeTag where
  | vNull
  | vNum (q : ℚ)
  | vNaN
  | vInf
  | vStr (isEmpty : Bool) (numParse : Option ℚ)
  | vRaw (a b : ℚ)
  | vSecFrac (s f : ℚ)
  | vOther
deriving DecidableEq

/-- Embedding of `TempoSync.timeTagToPosixSeconds` (tempo-sync.js lines
45–70).  The leading falsiness guard `if (!tt) return null` sends `null`,
`undefined`, the number 0, NaN and the empty string to `none`; a finite
nonzero number passes through; a nonempty string returns its finite
`Number()` parse; the two object shapes convert via
`(sec >>> 0) + (frac >>> 0) / 2^32 - 2208988800`; everything else falls
through to `null`.  The source wraps the body in try/catch and is total. -/
def timeTagToPosixSeconds : TimeTag → Option ℚ
  | .vNull => none
  | .vNum q => if q = 0 then none else some q
  | .vNaN => none
  | .vInf => none
  | .vStr isEmpty numParse =>
      if isEmpty then none else
      match numParse with
      | some n => some n
      | none => none
  | .vRaw a b => some ((jsToUint32 a : ℚ) + (jsToUint32 b : ℚ) / 4294967296 - 2208988800)
  | .vSecFrac s f => some ((jsToUint32 s : ℚ) + (jsToUint32 f : ℚ) / 4294967296 - 2208988800)
  | .vOther => none

/-- JavaScript `x || fallback` applied to an optional number (tempo-sync.js
line 208: `this.timeTagToPosixSeconds(timeTag) || this.nowPosixSeconds()`):
`none` and the falsy number 0 both select the fallback. -/
def jsOrElse (x : Option ℚ) (fallback : ℚ) : ℚ :=
  match x with
  | some q => if q = 0 then fallback else q
  | none => fallback

/-- Internal tempo model of `TempoSync` (tempo-sync.js lines 26–34): the
field names `freq`, `timeSec`, `count` are the source names. -/
structure TempoModel where
  freq : ℚ
  timeSec : ℚ
  count : ℚ
deriving DecidableEq

/-- Mutable state of a `TempoSync` instance (tempo-sync.js lines 18–35):
`_lastCpsApplied` and `_tempoModel`, both `null` initially. -/
structure SyncState where
  lastCpsApplied : Option ℚ
  tempoModel : Option TempoModel
deriving DecidableEq

/-- Initial `TempoSync` state produced by the constructor. -/
def initialState : SyncState := ⟨none, none⟩

/-- Result record of `computeUpdateDecision` (tempo-sync.js line 166). -/
structure Decision where
  shouldUpdate : Bool
  hasCycle : Bool
  phaseDrift : ℚ
deriving DecidableEq

/-- Snapshot of the `pulsar-punctual.sonicLink` configuration read inside
`onDirtPlay` (tempo-sync.js lines 210–224).  `phaseSyncEnabled = true`
models any configured value other than `false` (the source tests
`phaseSyncEnabled !== false`); `phaseTolerance` is the effective tolerance
after the `|| 1/64` default; `phaseLeadCycles` is the configured lead after
the `Number(... ?? 0)` coercion, finite by the `isFinite` guard on
line 222. -/
structure Config where
  phaseSyncEnabled : Bool
  phaseTolerance : ℚ
  phaseLeadCycles : ℚ

/-- Fields of a `/dirt/play` event record that `onDirtPlay` reads
(tempo-sync.js lines 204–207): `cps` is `some q` when `evt.cps` is a finite
number `q` and `none` otherwise; likewise `cycle` (the source treats a
non-number or non-finite `evt.cycle` exactly like an absent one, via the
`hasCycle` test on line 149). -/
structure DirtEvent where
  cps : Option ℚ
  cycle : Option ℚ

/-- Embedding of `TempoSync.computeUpdateDecision` (tempo-sync.js lines
144–167).  `lastCps` falls back to `_lastCpsApplied` when no tempo model is
retained; `cpsChanged` is the negated closeness test against the 1e-9
tolerance (the ideal rational `1/10^9`); the drift branch wraps the
prediction error with `phaseWrap` (the inline lines 157–158) and compares
against the tolerance; with no previous model but a present cycle the
realign flag is forced. -/
def computeUpdateDecision (s : SyncState) (cps : ℚ) (cycle : Option ℚ)
    (msgTimeSec : ℚ) (phaseSyncEnabled : Bool) (phaseTolerance : ℚ) : Decision :=
  let lastCps : Option ℚ :=
    match s.tempoModel with
    | some m => some m.freq
    | none => s.lastCpsApplied
  let cpsChanged : Bool :=
    match lastCps with
    | some lc => !(decide (|cps - lc| < 1/1000000000))
    | none => true
  let pd : ℚ × Bool :=
    match cycle with
    | some c =>
        if phaseSyncEnabled then
          match s.tempoModel with
          | some m =>
              let predicted := m.count + (msgTimeSec - m.timeSec) * m.freq
              let d := phaseWrap (predicted - c)
              (d, decide (phaseTolerance < |d|))
          | none => (0, true)
        else (0, false)
    | none => (0, false)
  { shouldUpdate := cpsChanged || pd.2, hasCycle := cycle.isSome, phaseDrift := pd.1 }

/-- Candidate ForeignTempo shapes built by `buildForeignTempoCandidates`
(tempo-sync.js lines 96–130): the precise rational shape with BigInt
numerators and denominators, and the simple `{freq}` fallback. -/
inductive Candidate where
  | precise (freqNumerator : ℤ) (freqDenominator : ℤ) (time : ℚ)
      (countNumerator : ℤ) (countDenominator : ℤ)
  | simple (freq : ℚ)
deriving DecidableEq

/-- Embedding of `TempoSync.buildForeignTempoCandidates` (tempo-sync.js
lines 96–130): frequency scaled to thousandths, cycle count to millionths
(`Math.round` embedded as `jsRound`), rational zero count when no cycle is
present, and always the simple shape appended last.  BigInt is taken as
available (it is, in any Pulsar/Electron runtime). -/
def buildForeignTempoCandidates (cps : ℚ) (cycle : Option ℚ) (timeSec : ℚ) :
    List Candidate :=
  (match cycle with
   | some c => [Candidate.precise (jsRound (cps * 1000)) 1000 timeSec
                  (jsRound (c * 1000000)) 1000000]
   | none => [Candidate.precise (jsRound (cps * 1000)) 1000 timeSec 0 1])
  ++ [Candidate.simple cps]

/-- Embedding of `TempoSync.tryApplyTempo` (tempo-sync.js lines 177–188).
The external `punctual.setTempo` call is modelled by the oracle `accepts`
(`true` = no exception thrown).  The loop walks the candidate list in order
and returns at the first accepted candidate; the result is the index of
that candidate (`none` when every candidate was rejected, the
`{applied: false}` outcome). -/
def tryApplyTempo (accepts : Candidate → Bool) : List Candidate → Option ℕ
  | [] => none
  | c :: rest =>
      if accepts c then some 0
      else (tryApplyTempo accepts rest).map (· + 1)

/-- Embedding of `TempoSync.onDirtPlay` (tempo-sync.js lines 201–253) as a
state transition.  `now` is the value `nowPosixSeconds()` would return;
`accepts` models `punctual.setTempo` (the `punctual` argument is taken as
present).  Logging has no effect on the state and is omitted.  The
`hasCycle` flag of the decision equals `e.cycle.isSome`, so line 226 is
embedded as a match on `e.cycle`; line 238 reads the pre-update model for
the retained cycle count. -/
def onDirtPlay (s : SyncState) (evt : Option DirtEvent) (tt : TimeTag)
    (now : ℚ) (cfg : Config) (accepts : Candidate → Bool) : SyncState :=
  match evt with
  | none => s
  | some e =>
    match e.cps with
    | none => s
    | some cps =>
      if 0 < cps then
        let msgTimeSec := jsOrElse (timeTagToPosixSeconds tt) now
        let d := computeUpdateDecision s cps e.cycle msgTimeSec
          cfg.phaseSyncEnabled cfg.phaseTolerance
        if d.shouldUpdate then
          let leadCycles := phaseWrap cfg.phaseLeadCycles
          let effectiveCycle : Option ℚ :=
            match e.cycle with
            | some c => some (c + leadCycles)
            | none => none
          let candidates := buildForeignTempoCandidates cps effectiveCycle msgTimeSec
          match tryApplyTempo accepts candidates with
          | some _ =>
              { lastCpsApplied := some cps,
                tempoModel := some
                  (match effectiveCycle with
                   | some ec => ⟨cps, msgTimeSec, ec⟩
                   | none =>
                       ⟨cps, msgTimeSec,
                        match s.tempoModel with
                        | some m => m.count
                        | none => 0⟩) }
          | none => s
        else s
      else s

/-- States of a `TempoSync` instance reachable from the freshly constructed
state by any sequence of `onDirtPlay` calls. -/
inductive Reachable : SyncState → Prop
  | init : Reachable initialState
  | step (s : SyncState) (evt : Option DirtEvent) (tt : TimeTag) (now : ℚ)
      (cfg : Config) (accepts : Candidate → Bool) :
      Reachable s → Reachable (onDirtPlay s evt tt now cfg accepts)

/-- State invariant maintained by `onDirtPlay`: the two fields are `null`
together, and a retained model carries a positive frequency equal to the
last applied cps. -/
def StateInv (s : SyncState) : Prop :=
  match s.tempoModel with
  | none => s.lastCpsApplied = none
  | some m => 0 < m.freq ∧ s.lastCpsApplied = some m.freq

/-- Value retained for the cycle count on a frequency-only update
(tempo-sync.js line 238): the previous model's count, or 0 when no model
was retained. -/
def prevCountOf (s : SyncState) : ℚ :=
  match s.tempoModel with
  | some m => m.count
  | none => 0

/-- Specification-side reading of the `cpsChanged` flag (spec §4.4 step 1):
true if no previous model exists, or the frequency moved by at least the
1e-9 tolerance.  Compared against `computeUpdateDecision` in claim C4. -/
def cpsChangedSpec (s : SyncState) (cps : ℚ) : Prop :=
  s.tempoModel = none ∨ ∃ m, s.tempoModel = some m ∧ 1/1000000000 ≤ |cps - m.freq|

/-- Specification-side reading of the `needRealign` flag (spec §4.4 steps
3–4): phase sync enabled, a cycle present, and either no usable previous
model (forced realign) or wrapped drift beyond tolerance.  Compared
against `computeUpdateDecision` in claim C4. -/
def needRealignSpec (s : SyncState) (cycle : Option ℚ) (mt : ℚ) (sync : Bool)
    (tol : ℚ) : Prop :=
  sync = true ∧ ∃ c, cycle = some c ∧
    (s.tempoModel = none ∨
     ∃ m, s.tempoModel = some m ∧ tol < |phaseWrap (m.count + (mt - m.timeSec) * m.freq - c)|)

/-- OSC argument as received by the `/dirt/play` handler in osc-service.js:
either a `{type, value}` wrapper produced by the OSC decoder in metadata
mode (an object with a `value` property) or a bare value.  The payload
type is abstract; the JavaScript `String()` coercion on it is supplied as
a function argument where needed. -/
inductive OscArg (A : Type) where
  | wrapped (value : A)
  | plain (value : A)

/-- Embedding of the `unwrap` helper (osc-service.js lines 75 and 132):
take the `value` property when present, the value itself otherwise. -/
def unwrap {A : Type} : OscArg A → A
  | .wrapped v => v
  | .plain v => v

/-- Loop of `kvToObj` (osc-service.js lines 87–95, identical at 139–147):
walk the argument list two at a time (`i + 1 < xs.length`, so a trailing
unpaired key is dropped), coerce each key to string via `toStr`, and
assign `out[k] = v` only when the key is truthy, i.e. nonempty; later
assignments shadow earlier ones.  The JavaScript object `out` is modelled
as a lookup function `String → Option A`. -/
def kvLoop {A : Type} (toStr : A → String) :
    List (OscArg A) → (String → Option A) → String → Option A
  | k :: v :: rest, out =>
      kvLoop toStr rest (fun key =>
        if toStr (unwrap k) = "" then out key
        else if key = toStr (unwrap k) then some (unwrap v) else out key)
  | _, out => out

/-- Embedding of `kvToObj` (osc-service.js lines 87–97 and 139–149):
the normalizer that turns a flat `/dirt/play` argument list into the event
record, starting from the empty object `Object.create(null)`. -/
def kvToObj {A : Type} (toStr : A → String) (xs : List (OscArg A)) :
    String → Option A :=
  kvLoop toStr xs (fun _ => none)

/-- Specification-side reading of the normalizer input (claim C8): the
(key, value) pairs at even/odd positions of the argument list, keys
coerced to string, values unwrapped, a trailing unpaired key dropped. -/
def kvPairsSpec {A : Type} (toStr : A → String) : List (OscArg A) → List (String × A)
  | k :: v :: rest => (toStr (unwrap k), unwrap v) :: kvPairsSpec toStr rest
  | _ => []

/-- Specification-side last-value-wins lookup (claim C8): the value of the
last pair carrying the requested key, if any. -/
def lastValueWins {A : Type} : List (String × A) → String → Option A
  | [], _ => none
  | p :: rest, key =>
      match lastValueWins rest key with
      | some v => some v
      | none => if p.1 = key then some p.2 else none

/-- Transport error event fed to the `error` handler of osc-service.js
(lines 172–185): whether the message text matches the header-validation
noise regex of line 174, and the `Date.now()` reading in milliseconds at
which the handler runs. -/
structure ErrEvent where
  headerNoise : Bool
  timeMs : ℚ

/-- One step of the transport error handler (osc-service.js lines
172–185) acting on the `_lastHeaderErrAt` field (0 initially, a falsy
value): a noise-matching error is logged as a warning only when no warning
was ever logged or more than 2000 ms have passed since the last one, and
then stamps the field; any other error is logged immediately and leaves
the field alone.  The result is `(new _lastHeaderErrAt, warned, errored)`. -/
def errHandlerStep (lastAt : ℚ) (e : ErrEvent) : ℚ × Bool × Bool :=
  if e.headerNoise then
    if lastAt = 0 ∨ 2000 < e.timeMs - lastAt then (e.timeMs, true, false)
    else (lastAt, false, false)
  else (lastAt, false, true)

/-- Trace of the transport error handler over a sequence of error events:
each event paired with whether it produced a rate-limited warning line and
whether it produced an immediate error line. -/
def errHandlerTrace : ℚ → List ErrEvent → List (ErrEvent × Bool × Bool)
  | _, [] => []
  | lastAt, e :: rest =>
      (e, (errHandlerStep lastAt e).2.1, (errHandlerStep lastAt e).2.2) ::
        errHandlerTrace (errHandlerStep lastAt e).1 rest

/-! ### Arithmetic facts about the JavaScript wrap -/

theorem neg_one_lt_sub_jsTrunc (q : ℚ) : -1 < q - (jsTrunc q : ℚ) := by
  unfold jsTrunc
  split
  · have := Int.floor_le q
    linarith
  · have := Int.ceil_lt_add_one q
    linarith

theorem sub_jsTrunc_lt_one (q : ℚ) : q - (jsTrunc q : ℚ) < 1 := by
  unfold jsTrunc
  split
  · have := Int.sub_one_lt_floor q
    linarith
  · have := Int.le_ceil q
    linarith

theorem jsMod_one (x : ℚ) : jsMod x 1 = x - (jsTrunc x : ℚ) := by
  simp [jsMod]

/-- Closed form of the source's two-line wrap: it equals the fractional
part of the input, shifted down by one whenever that fractional part
exceeds one half. -/
theorem phaseWrap_eq_fract (d : ℚ) :
    phaseWrap d = if 1/2 < Int.fract d then Int.fract d - 1 else Int.fract d := by
  unfold phaseWrap
  have hm : -1 < d - (jsTrunc d : ℚ) := neg_one_lt_sub_jsTrunc d
  have hpos : 0 ≤ jsMod d 1 + 1 := by rw [jsMod_one]; linarith
  have hr : jsMod (jsMod d 1 + 1) 1 = Int.fract d := by
    rw [jsMod_one (jsMod d 1 + 1), jsTrunc, if_pos hpos, jsMod_one]
    rw [Int.self_sub_floor]
    rw [Int.fract_add_one, Int.fract_sub_int]
  rw [hr]

theorem phaseWrap_bounds (d : ℚ) : -(1/2) < phaseWrap d ∧ phaseWrap d ≤ 1/2 := by
  rw [phaseWrap_eq_fract]
  have h0 := Int.fract_nonneg d
  have h1 := Int.fract_lt_one d
  split <;> constructor <;> linarith

theorem phaseWrap_congruent (d : ℚ) : ∃ k : ℤ, d - phaseWrap d = (k : ℚ) := by
  rw [phaseWrap_eq_fract]
  split
  · refine ⟨⌊d⌋ + 1, ?_⟩
    push_cast
    have := Int.self_sub_fract d
    linarith
  · exact ⟨⌊d⌋, Int.self_sub_fract d⟩

theorem phaseWrap_idem (d : ℚ) : phaseWrap (phaseWrap d) = phaseWrap d := by
  have h0 := Int.fract_nonneg d
  have h1 := Int.fract_lt_one d
  rw [phaseWrap_eq_fract d]
  split
  · rename_i h
    rw [phaseWrap_eq_fract]
    have heq : Int.fract (Int.fract d - 1) = Int.fract d := by
      have h2 := Int.fract_sub_int (Int.fract d) 1
      push_cast at h2
      rw [h2, Int.fract_fract]
    rw [heq, if_pos h]
  · rename_i h
    rw [phaseWrap_eq_fract]
    rw [Int.fract_fract, if_neg h]

/-! ### Claim C1: phase wrap invariant -/

/-- Claim C1, counterexample: at raw drift `d = 1/2` the wrap used by the
decision engine yields exactly `1/2`, which does NOT lie in the claimed
half-open interval `[-0.5, 0.5)` (the source subtracts 1 only when the
intermediate result strictly exceeds `0.5`, so `0.5` itself survives). -/
theorem C1_wrap_counterexample :
    phaseWrap (1/2) = 1/2 ∧ ¬ (-(1/2) ≤ phaseWrap (1/2) ∧ phaseWrap (1/2) < 1/2) := by
  have h : phaseWrap (1/2) = 1/2 := by
    rw [phaseWrap_eq_fract]
    norm_num [Int.fract]
  refine ⟨h, ?_⟩
  rw [h]
  norm_num

/-- Claim C1, amended: for every real raw drift `d`, the wrap computation
`((d mod 1) + 1) mod 1`, then subtract 1 if the result exceeds `0.5`
(used identically for the phase drift in `computeUpdateDecision` and for
the configured lead offset in `onDirtPlay`), yields a value that lies in
the interval `(-0.5, 0.5]` — not `[-0.5, 0.5)` — and is congruent to `d`
modulo 1. -/
theorem C1_wrap_amended (d : ℚ) :
    (-(1/2) < phaseWrap d ∧ phaseWrap d ≤ 1/2) ∧ ∃ k : ℤ, d - phaseWrap d = (k : ℚ) :=
  ⟨phaseWrap_bounds d, phaseWrap_congruent d⟩

/-! ### Claim C3: timetag round trip -/

theorem jsToUint32_intCast (z : ℤ) (h0 : 0 ≤ z) (h1 : z < 4294967296) :
    jsToUint32 (z : ℚ) = z := by
  unfold jsToUint32 jsTrunc
  rw [if_pos (by exact_mod_cast h0), Int.floor_intCast]
  exact Int.emod_eq_of_lt h0 h1

/-- Claim C3: for integers `s, f` in `[0, 2^32)`, decoding `{raw: [s, f]}`
returns exactly `s + f/2^32 - 2208988800` (exact rational equality, hence
in particular within `1e-6`), and decoding a `{seconds, fractions}` object
with the same fields returns the same value. -/
theorem C3_timetag_roundtrip (s f : ℤ) (hs0 : 0 ≤ s) (hs1 : s < 4294967296)
    (hf0 : 0 ≤ f) (hf1 : f < 4294967296) :
    timeTagToPosixSeconds (.vRaw (s : ℚ) (f : ℚ))
      = some ((s : ℚ) + (f : ℚ) / 4294967296 - 2208988800)
    ∧ timeTagToPosixSeconds (.vSecFrac (s : ℚ) (f : ℚ))
      = some ((s : ℚ) + (f : ℚ) / 4294967296 - 2208988800) := by
  have hs := jsToUint32_intCast s hs0 hs1
  have hf := jsToUint32_intCast f hf0 hf1
  constructor <;> simp [timeTagToPosixSeconds, hs, hf]

/-- Witness for C3: a concrete decode, `s = 2208988803`, `f = 2^31`,
giving POSIX time `3.5`. -/
theorem C3_timetag_roundtrip_witness :
    timeTagToPosixSeconds (.vRaw ((2208988803 : ℤ) : ℚ) ((2147483648 : ℤ) : ℚ))
      = some (((2208988803 : ℤ) : ℚ) + ((2147483648 : ℤ) : ℚ) / 4294967296 - 2208988800) :=
  (C3_timetag_roundtrip 2208988803 2147483648 (by norm_num) (by norm_num)
    (by norm_num) (by norm_num)).1

/-! ### Claim C7: timetag decode totality and case analysis -/

/-- Claim C7, counterexample: the number `0` is a finite number, but the
decoder does not return it — the falsiness guard `if (!tt) return null` on
line 47 sends the number `0` to `null`, not to itself. -/
theorem C7_timetag_counterexample :
    ¬ (timeTagToPosixSeconds (TimeTag.vNum 0) = some (0 : ℚ)) := by
  simp [timeTagToPosixSeconds]

/-- Claim C7, amended: the decoder is a total function (the source wraps
its body in try/catch so it never throws).  It returns the value itself
for every finite NONZERO number — the number `0`, being falsy, yields
`none` instead; the parsed value for every nonempty numeric string (and
`none` for the empty string and for strings whose `Number()` parse is not
finite); the converted POSIX value for every `{raw: [sec, frac]}` pair and
every `{seconds, fractions}` object; and `none` for anything else
(`null`/`undefined`, NaN, infinities, other objects).  Whenever the
decoder yields `none`, `onDirtPlay` substitutes the current clock time as
the message time. -/
theorem C7_timetag_total_amended :
    (∀ q : ℚ, q ≠ 0 → timeTagToPosixSeconds (.vNum q) = some q)
    ∧ timeTagToPosixSeconds (.vNum 0) = none
    ∧ timeTagToPosixSeconds .vNull = none
    ∧ timeTagToPosixSeconds .vNaN = none
    ∧ timeTagToPosixSeconds .vInf = none
    ∧ (∀ p, timeTagToPosixSeconds (.vStr false p) = p)
    ∧ (∀ p, timeTagToPosixSeconds (.vStr true p) = none)
    ∧ (∀ a b : ℚ, timeTagToPosixSeconds (.vRaw a b)
        = some ((jsToUint32 a : ℚ) + (jsToUint32 b : ℚ) / 4294967296 - 2208988800))
    ∧ (∀ sv fv : ℚ, timeTagToPosixSeconds (.vSecFrac sv fv)
        = some ((jsToUint32 sv : ℚ) + (jsToUint32 fv : ℚ) / 4294967296 - 2208988800))
    ∧ timeTagToPosixSeconds .vOther = none
    ∧ (∀ (tt : TimeTag) (now : ℚ), timeTagToPosixSeconds tt = none →
        jsOrElse (timeTagToPosixSeconds tt) now = now) := by
  refine ⟨?_, rfl, rfl, rfl, rfl, ?_, fun p => rfl, fun a b => rfl, fun sv fv => rfl, rfl, ?_⟩
  · intro q hq
    simp [timeTagToPosixSeconds, hq]
  · intro p
    cases p <;> rfl
  · intro tt now h
    rw [h]
    rfl

/-- Witness for C7: the nonzero finite number `5` passes through the
decoder unchanged. -/
theorem C7_timetag_total_amended_witness :
    timeTagToPosixSeconds (.vNum 5) = some (5 : ℚ) :=
  C7_timetag_total_amended.1 5 (by norm_num)

/-! ### Evaluation lemmas for concrete runs -/

theorem phaseWrap_zero : phaseWrap 0 = 0 := by
  rw [phaseWrap_eq_fract]
  norm_num

theorem phaseWrap_quarter : phaseWrap (1/4) = 1/4 := by
  rw [phaseWrap_eq_fract]
  norm_num [Int.fract]

/-! ### The state invariant and reachability -/

theorem stateInv_initial : StateInv initialState := rfl

theorem stateInv_onDirtPlay (s : SyncState) (evt : Option DirtEvent) (tt : TimeTag)
    (now : ℚ) (cfg : Config) (accepts : Candidate → Bool) (h : StateInv s) :
    StateInv (onDirtPlay s evt tt now cfg accepts) := by
  rcases evt with _ | ⟨cpsOpt, cyc⟩
  · exact h
  rcases cpsOpt with _ | cps
  · exact h
  simp only [onDirtPlay]
  split
  · rename_i hc
    split
    · split
      · cases cyc <;> exact ⟨hc, rfl⟩
      · exact h
    · exact h
  · exact h

theorem reachable_stateInv (s : SyncState) (h : Reachable s) : StateInv s := by
  induction h with
  | init => exact stateInv_initial
  | step s evt tt now cfg accepts _ ih =>
      exact stateInv_onDirtPlay s evt tt now cfg accepts ih

/-- Concrete first apply: from the fresh state, a sample with cps 1 and
cycle 0 at message time 0, with lead 0 and an accepting engine, stores the
model `{freq 1, timeSec 0, count 0}`. -/
theorem firstApply_eval :
    onDirtPlay initialState (some ⟨some 1, some 0⟩) TimeTag.vNull 0 ⟨true, 1/64, 0⟩
      (fun _ => true) = ⟨some 1, some ⟨1, 0, 0⟩⟩ := by
  norm_num [onDirtPlay, computeUpdateDecision, buildForeignTempoCandidates,
    tryApplyTempo, jsOrElse, timeTagToPosixSeconds, initialState, phaseWrap_zero]

/-! ### The applier loop -/

theorem tryApplyTempo_eq_none_iff (accepts : Candidate → Bool) (cands : List Candidate) :
    tryApplyTempo accepts cands = none ↔ ∀ c ∈ cands, accepts c = false := by
  induction cands with
  | nil => simp [tryApplyTempo]
  | cons c rest ih =>
    by_cases hc : accepts c
    · simp [tryApplyTempo, hc]
    · simp only [tryApplyTempo, if_neg hc, Option.map_eq_none]
      simp only [Bool.not_eq_true] at hc
      simp [ih, hc]

theorem tryApplyTempo_some_spec (accepts : Candidate → Bool) (cands : List Candidate)
    (i : ℕ) (h : tryApplyTempo accepts cands = some i) :
    ∃ hlen : i < cands.length,
      accepts (cands.get ⟨i, hlen⟩) = true ∧
      ∀ j (hj : j < i), accepts (cands.get ⟨j, Nat.lt_trans hj hlen⟩) = false := by
  induction cands generalizing i with
  | nil => simp [tryApplyTempo] at h
  | cons c rest ih =>
    by_cases hc : accepts c
    · simp only [tryApplyTempo, if_pos hc, Option.some.injEq] at h
      subst h
      exact ⟨Nat.succ_pos _, hc, fun j hj => absurd hj (Nat.not_lt_zero j)⟩
    · simp only [tryApplyTempo, if_neg hc, Option.map_eq_some'] at h
      obtain ⟨i2, hi2, rfl⟩ := h
      obtain ⟨hlen2, hacc2, hprev2⟩ := ih i2 hi2
      refine ⟨Nat.succ_lt_succ hlen2, hacc2, ?_⟩
      intro j hj
      cases j with
      | zero =>
        simp only [Bool.not_eq_true] at hc
        exact hc
      | succ j2 => exact hprev2 j2 (Nat.lt_of_succ_lt_succ hj)

theorem onDirtPlay_all_rejected (accepts : Candidate → Bool)
    (hrej : ∀ c, accepts c = false) (s : SyncState) (evt : Option DirtEvent)
    (tt : TimeTag) (now : ℚ) (cfg : Config) :
    onDirtPlay s evt tt now cfg accepts = s := by
  rcases evt with _ | ⟨cpsOpt, cyc⟩
  · rfl
  rcases cpsOpt with _ | cps
  · rfl
  simp only [onDirtPlay]
  split
  · split
    · split
      · rename_i val heq
        rw [(tryApplyTempo_eq_none_iff accepts _).mpr (fun c _ => hrej c)] at heq
        cases heq
      · rfl
    · rfl
  · rfl

/-! ### The success and no-update paths of onDirtPlay -/

theorem onDirtPlay_success_some (s : SyncState) (cps c : ℚ) (tt : TimeTag)
    (now : ℚ) (cfg : Config) (accepts : Candidate → Bool)
    (hc : 0 < cps)
    (hd : (computeUpdateDecision s cps (some c) (jsOrElse (timeTagToPosixSeconds tt) now)
      cfg.phaseSyncEnabled cfg.phaseTolerance).shouldUpdate = true)
    (happ : tryApplyTempo accepts
      (buildForeignTempoCandidates cps (some (c + phaseWrap cfg.phaseLeadCycles))
        (jsOrElse (timeTagToPosixSeconds tt) now)) ≠ none) :
    onDirtPlay s (some ⟨some cps, some c⟩) tt now cfg accepts =
      ⟨some cps, some ⟨cps, jsOrElse (timeTagToPosixSeconds tt) now,
        c + phaseWrap cfg.phaseLeadCycles⟩⟩ := by
  simp only [onDirtPlay, if_pos hc, hd, if_true]
  rcases happly : tryApplyTempo accepts
      (buildForeignTempoCandidates cps (some (c + phaseWrap cfg.phaseLeadCycles))
        (jsOrElse (timeTagToPosixSeconds tt) now)) with _ | i
  · exact absurd happly happ
  · rfl

theorem onDirtPlay_success_none (s : SyncState) (cps : ℚ) (tt : TimeTag)
    (now : ℚ) (cfg : Config) (accepts : Candidate → Bool)
    (hc : 0 < cps)
    (hd : (computeUpdateDecision s cps none (jsOrElse (timeTagToPosixSeconds tt) now)
      cfg.phaseSyncEnabled cfg.phaseTolerance).shouldUpdate = true)
    (happ : tryApplyTempo accepts
      (buildForeignTempoCandidates cps none
        (jsOrElse (timeTagToPosixSeconds tt) now)) ≠ none) :
    onDirtPlay s (some ⟨some cps, none⟩) tt now cfg accepts =
      ⟨some cps, some ⟨cps, jsOrElse (timeTagToPosixSeconds tt) now, prevCountOf s⟩⟩ := by
  simp only [onDirtPlay, if_pos hc, hd, if_true]
  rcases happly : tryApplyTempo accepts
      (buildForeignTempoCandidates cps none
        (jsOrElse (timeTagToPosixSeconds tt) now)) with _ | i
  · exact absurd happly happ
  · rfl

theorem onDirtPlay_noUpdate (s : SyncState) (cps : ℚ) (cyc : Option ℚ) (tt : TimeTag)
    (now : ℚ) (cfg : Config) (accepts : Candidate → Bool)
    (hd : (computeUpdateDecision s cps cyc (jsOrElse (timeTagToPosixSeconds tt) now)
      cfg.phaseSyncEnabled cfg.phaseTolerance).shouldUpdate = false) :
    onDirtPlay s (some ⟨some cps, cyc⟩) tt now cfg accepts = s := by
  simp only [onDirtPlay]
  split
  · simp [hd]
  · rfl

/-! ### Claim C10: reachable-state model invariant -/

/-- Claim C10: in every state reachable from the initial `TempoSync` state
via `onDirtPlay`, a retained (non-null) tempo model has a frequency
strictly greater than 0 and equal to the last applied cps.  Finiteness of
the frequency, anchor time and cycle count is inherent in the rational
embedding: every stored field is an exact rational, never NaN or
infinite. -/
theorem C10_model_invariant (s : SyncState) (hs : Reachable s) (m : TempoModel)
    (hm : s.tempoModel = some m) :
    0 < m.freq ∧ s.lastCpsApplied = some m.freq := by
  have h2 := reachable_stateInv s hs
  unfold StateInv at h2
  rw [hm] at h2
  exact h2

/-- Witness for C10: after one successful apply from the initial state the
retained model has frequency 1, positive and equal to the last applied
cps. -/
theorem C10_model_invariant_witness :
    0 < (TempoModel.mk 1 0 0).freq ∧
    (onDirtPlay initialState (some ⟨some 1, some 0⟩) TimeTag.vNull 0 ⟨true, 1/64, 0⟩
      (fun _ => true)).lastCpsApplied = some (TempoModel.mk 1 0 0).freq :=
  C10_model_invariant _
    (Reachable.step initialState (some ⟨some 1, some 0⟩) TimeTag.vNull 0 ⟨true, 1/64, 0⟩
      (fun _ => true) Reachable.init)
    ⟨1, 0, 0⟩ (by rw [firstApply_eval])

/-! ### Claim C4: decision characterization -/

/-- Claim C4: for every reachable decision-engine state and every input,
`shouldUpdate` holds exactly when `cpsChanged` or `needRealign` holds —
`cpsChanged` true iff there is no previous model or the frequency moved by
at least 1e-9, `needRealign` as the spec describes it — and whenever phase
sync is enabled, a cycle is present and no previous model exists,
`shouldUpdate` is forced true (the first sample with a cycle always
anchors).  Reachability matters: in every reachable state the
`_lastCpsApplied` fallback on line 146 agrees with "no previous model",
because both fields are set together. -/
theorem C4_decision_characterization (s : SyncState) (hs : Reachable s) (cps : ℚ)
    (cycle : Option ℚ) (mt : ℚ) (sync : Bool) (tol : ℚ) :
    ((computeUpdateDecision s cps cycle mt sync tol).shouldUpdate = true ↔
      (cpsChangedSpec s cps ∨ needRealignSpec s cycle mt sync tol)) ∧
    (sync = true → cycle.isSome = true → s.tempoModel = none →
      (computeUpdateDecision s cps cycle mt sync tol).shouldUpdate = true) := by
  have hinv := reachable_stateInv s hs
  have main : (computeUpdateDecision s cps cycle mt sync tol).shouldUpdate = true ↔
      (cpsChangedSpec s cps ∨ needRealignSpec s cycle mt sync tol) := by
    unfold computeUpdateDecision cpsChangedSpec needRealignSpec
    cases hm : s.tempoModel with
    | none =>
      have hl : s.lastCpsApplied = none := by
        unfold StateInv at hinv
        rw [hm] at hinv
        exact hinv
      simp [hm, hl]
    | some m =>
      cases cycle with
      | none => simp [hm, not_lt]
      | some c =>
        cases sync with
        | false => simp [hm, not_lt]
        | true => simp [hm, not_lt]
  refine ⟨main, ?_⟩
  intro h1 h2 h3
  rw [main]
  rcases cycle with _ | c
  · simp at h2
  · exact Or.inr ⟨h1, c, rfl, Or.inl h3⟩

/-- Witness for C4: at the initial state (no previous model), the very
first sample carrying a cycle yields `shouldUpdate = true`. -/
theorem C4_decision_characterization_witness :
    (computeUpdateDecision initialState 1 (some 0) 0 true (1/64)).shouldUpdate = true :=
  (C4_decision_characterization initialState Reachable.init 1 (some 0) 0 true (1/64)).2
    rfl rfl rfl

/-! ### Claim C5: applier fallback order and failure behaviour -/

/-- Claim C5: the applier walks the candidate list strictly in order and
stops at the first accepted candidate (every earlier candidate was
rejected); the update is reported as failed if and only if every candidate
is rejected; and when every candidate is rejected the whole `TempoSync`
state — retained tempo model and last applied cps — is left completely
unchanged by `onDirtPlay`. -/
theorem C5_applier_first_accept :
    (∀ (accepts : Candidate → Bool) (cands : List Candidate),
      tryApplyTempo accepts cands = none ↔ ∀ c ∈ cands, accepts c = false) ∧
    (∀ (accepts : Candidate → Bool) (cands : List Candidate) (i : ℕ),
      tryApplyTempo accepts cands = some i →
      ∃ hlen : i < cands.length,
        accepts (cands.get ⟨i, hlen⟩) = true ∧
        ∀ j (hj : j < i), accepts (cands.get ⟨j, Nat.lt_trans hj hlen⟩) = false) ∧
    (∀ accepts : Candidate → Bool, (∀ c, accepts c = false) →
      ∀ (s : SyncState) (evt : Option DirtEvent) (tt : TimeTag) (now : ℚ) (cfg : Config),
        onDirtPlay s evt tt now cfg accepts = s) :=
  ⟨tryApplyTempo_eq_none_iff, tryApplyTempo_some_spec,
   fun accepts h s evt tt now cfg => onDirtPlay_all_rejected accepts h s evt tt now cfg⟩

/-- Witness for C5: with an engine that rejects everything, the applier
reports failure and `onDirtPlay` leaves the initial state unchanged. -/
theorem C5_applier_first_accept_witness :
    tryApplyTempo (fun _ => false) [Candidate.simple 2] = none ∧
    onDirtPlay initialState (some ⟨some 1, none⟩) TimeTag.vNull 0 ⟨true, 1/64, 0⟩
      (fun _ => false) = initialState :=
  ⟨(C5_applier_first_accept.1 (fun _ => false) [Candidate.simple 2]).mpr (fun _ _ => rfl),
   C5_applier_first_accept.2.2 (fun _ => false) (fun _ => rfl) initialState
     (some ⟨some 1, none⟩) TimeTag.vNull 0 ⟨true, 1/64, 0⟩⟩

/-! ### Claim C6: model update on success -/

/-- Claim C6: on a successful apply, if `effectiveCycle` was present
(cycle present, lead added) the tempo model is replaced wholesale with
`{freq: cps, timeSec: msgTimeSec, count: effectiveCycle}`; if absent, the
new model keeps the previous model's count (0 when none existed) while
frequency and anchor time are updated. -/
theorem C6_success_model_update :
    (∀ (s : SyncState) (cps c : ℚ) (tt : TimeTag) (now : ℚ) (cfg : Config)
      (accepts : Candidate → Bool),
      0 < cps →
      (computeUpdateDecision s cps (some c) (jsOrElse (timeTagToPosixSeconds tt) now)
        cfg.phaseSyncEnabled cfg.phaseTolerance).shouldUpdate = true →
      tryApplyTempo accepts (buildForeignTempoCandidates cps
        (some (c + phaseWrap cfg.phaseLeadCycles))
        (jsOrElse (timeTagToPosixSeconds tt) now)) ≠ none →
      onDirtPlay s (some ⟨some cps, some c⟩) tt now cfg accepts =
        ⟨some cps, some ⟨cps, jsOrElse (timeTagToPosixSeconds tt) now,
          c + phaseWrap cfg.phaseLeadCycles⟩⟩) ∧
    (∀ (s : SyncState) (cps : ℚ) (tt : TimeTag) (now : ℚ) (cfg : Config)
      (accepts : Candidate → Bool),
      0 < cps →
      (computeUpdateDecision s cps none (jsOrElse (timeTagToPosixSeconds tt) now)
        cfg.phaseSyncEnabled cfg.phaseTolerance).shouldUpdate = true →
      tryApplyTempo accepts (buildForeignTempoCandidates cps none
        (jsOrElse (timeTagToPosixSeconds tt) now)) ≠ none →
      onDirtPlay s (some ⟨some cps, none⟩) tt now cfg accepts =
        ⟨some cps, some ⟨cps, jsOrElse (timeTagToPosixSeconds tt) now, prevCountOf s⟩⟩) :=
  ⟨onDirtPlay_success_some, onDirtPlay_success_none⟩

/-- Witness for C6: a concrete successful apply with a present cycle. -/
theorem C6_success_model_update_witness :
    onDirtPlay initialState (some ⟨some 1, some 0⟩) TimeTag.vNull 0 ⟨true, 1/64, 0⟩
      (fun _ => true) =
      ⟨some 1, some ⟨1, jsOrElse (timeTagToPosixSeconds TimeTag.vNull) 0,
        0 + phaseWrap (Config.mk true (1/64) 0).phaseLeadCycles⟩⟩ :=
  C6_success_model_update.1 initialState 1 0 TimeTag.vNull 0 ⟨true, 1/64, 0⟩ (fun _ => true)
    (by norm_num)
    (by norm_num [computeUpdateDecision, initialState])
    (by simp [buildForeignTempoCandidates, tryApplyTempo])

/-! ### Claim C2: no-op stability of repeated identical samples -/

/-- Claim C2, counterexample: with the configured lead offset 1/4 and the
default tolerance 1/64, after the first successful apply of the sample
(cps 1, cycle 0, time 0) the identical sample yields `shouldUpdate = true`
again — the stored count includes the lead, so the predicted drift of a
repeat equals the lead and exceeds the tolerance forever. -/
theorem C2_noop_counterexample :
    (computeUpdateDecision
      (onDirtPlay initialState (some ⟨some 1, some 0⟩) TimeTag.vNull 0 ⟨true, 1/64, 1/4⟩
        (fun _ => true))
      1 (some 0) (jsOrElse (timeTagToPosixSeconds TimeTag.vNull) 0)
      true (1/64)).shouldUpdate = true := by
  have hpost : onDirtPlay initialState (some ⟨some 1, some 0⟩) TimeTag.vNull 0
      ⟨true, 1/64, 1/4⟩ (fun _ => true) = ⟨some 1, some ⟨1, 0, 1/4⟩⟩ := by
    norm_num [onDirtPlay, computeUpdateDecision, buildForeignTempoCandidates,
      tryApplyTempo, jsOrElse, timeTagToPosixSeconds, initialState, phaseWrap_quarter]
  rw [hpost]
  norm_num [computeUpdateDecision, jsOrElse, timeTagToPosixSeconds, phaseWrap_quarter,
    abs_of_pos]

/-- Claim C2, amended: after a first successful apply of a sample
(cps, cycle, time), feeding the identical sample to the decision engine
again yields `shouldUpdate = false`, PROVIDED the wrapped configured lead
offset does not exceed the phase tolerance in absolute value (in
particular with the default lead 0).  When the wrapped lead exceeds the
tolerance, the drift of a repeated sample equals the lead and retriggers
forever (see the counterexample). -/
theorem C2_noop_amended (s : SyncState) (cps cyc : ℚ) (tt : TimeTag) (now : ℚ)
    (cfg : Config) (accepts : Candidate → Bool)
    (hc : 0 < cps)
    (hlead : |phaseWrap cfg.phaseLeadCycles| ≤ cfg.phaseTolerance)
    (happ : tryApplyTempo accepts
      (buildForeignTempoCandidates cps (some (cyc + phaseWrap cfg.phaseLeadCycles))
        (jsOrElse (timeTagToPosixSeconds tt) now)) ≠ none) :
    (computeUpdateDecision (onDirtPlay s (some ⟨some cps, some cyc⟩) tt now cfg accepts)
      cps (some cyc) (jsOrElse (timeTagToPosixSeconds tt) now)
      cfg.phaseSyncEnabled cfg.phaseTolerance).shouldUpdate = false := by
  by_cases hd : (computeUpdateDecision s cps (some cyc)
      (jsOrElse (timeTagToPosixSeconds tt) now)
      cfg.phaseSyncEnabled cfg.phaseTolerance).shouldUpdate = true
  · rw [onDirtPlay_success_some s cps cyc tt now cfg accepts hc hd happ]
    have harg : cyc + phaseWrap cfg.phaseLeadCycles +
        (jsOrElse (timeTagToPosixSeconds tt) now
          - jsOrElse (timeTagToPosixSeconds tt) now) * cps - cyc
        = phaseWrap cfg.phaseLeadCycles := by ring
    have h1 : |cps - cps| < 1/1000000000 := by norm_num
    have h2 : ¬ (cfg.phaseTolerance < |phaseWrap cfg.phaseLeadCycles|) := not_lt.mpr hlead
    cases hsync : cfg.phaseSyncEnabled <;>
      simp [computeUpdateDecision, harg, phaseWrap_idem, h1, h2, hsync]
  · rw [onDirtPlay_noUpdate s cps (some cyc) tt now cfg accepts
      (Bool.not_eq_true _ ▸ hd)]
    exact Bool.not_eq_true _ ▸ hd

/-- Witness for C2 (amended): with lead 0 the repeated identical sample
does not retrigger. -/
theorem C2_noop_amended_witness :
    (computeUpdateDecision
      (onDirtPlay initialState (some ⟨some 1, some 0⟩) TimeTag.vNull 0 ⟨true, 1/64, 0⟩
        (fun _ => true))
      1 (some 0) (jsOrElse (timeTagToPosixSeconds TimeTag.vNull) 0)
      true (1/64)).shouldUpdate = false :=
  C2_noop_amended initialState 1 0 TimeTag.vNull 0 ⟨true, 1/64, 0⟩ (fun _ => true)
    (by norm_num)
    (by norm_num [phaseWrap_zero])
    (by simp [buildForeignTempoCandidates, tryApplyTempo])

/-! ### Claim C8: event normalizer -/

theorem kvLoop_lookup {A : Type} (toStr : A → String) :
    ∀ (xs : List (OscArg A)) (out : String → Option A) (key : String), key ≠ "" →
      kvLoop toStr xs out key = (lastValueWins (kvPairsSpec toStr xs) key).or (out key)
  | [], out, key, _ => by simp [kvLoop, kvPairsSpec, lastValueWins]
  | [k], out, key, _ => by simp [kvLoop, kvPairsSpec, lastValueWins]
  | k :: v :: rest, out, key, hk => by
      rw [show kvLoop toStr (k :: v :: rest) out = kvLoop toStr rest (fun key2 =>
        if toStr (unwrap k) = "" then out key2
        else if key2 = toStr (unwrap k) then some (unwrap v) else out key2) from rfl]
      rw [kvLoop_lookup toStr rest _ key hk]
      rw [show kvPairsSpec toStr (k :: v :: rest)
        = (toStr (unwrap k), unwrap v) :: kvPairsSpec toStr rest from rfl]
      by_cases hke : toStr (unwrap k) = ""
      · have hne2 : ¬ (("" : String) = key) := fun h => hk (Eq.symm h)
        simp only [lastValueWins, hke, if_pos rfl]
        cases lastValueWins (kvPairsSpec toStr rest) key <;> simp [hne2]
      · by_cases hkk : key = toStr (unwrap k)
        · have hpk : (toStr (unwrap k), unwrap v).1 = key := hkk.symm
          simp only [lastValueWins, if_neg hke, if_pos hkk, if_pos hpk]
          cases lastValueWins (kvPairsSpec toStr rest) key <;> simp
        · have hpk : ¬ ((toStr (unwrap k), unwrap v).1 = key) := fun h => hkk h.symm
          simp only [lastValueWins, if_neg hke, if_neg hkk, if_neg hpk]
          cases lastValueWins (kvPairsSpec toStr rest) key <;> simp

theorem kvLoop_empty_key {A : Type} (toStr : A → String) :
    ∀ (xs : List (OscArg A)) (out : String → Option A),
      kvLoop toStr xs out "" = out ""
  | [], out => rfl
  | [k], out => rfl
  | k :: v :: rest, out => by
      rw [show kvLoop toStr (k :: v :: rest) out = kvLoop toStr rest (fun key2 =>
        if toStr (unwrap k) = "" then out key2
        else if key2 = toStr (unwrap k) then some (unwrap v) else out key2) from rfl]
      rw [kvLoop_empty_key toStr rest]
      by_cases hke : toStr (unwrap k) = ""
      · simp [hke]
      · simp [hke, Ne.symm hke]

/-- Claim C8, counterexample: a pair whose key coerces to the empty string
is dropped by the `if (k)` truthiness guard on line 92, so its value is
NOT recorded, contrary to the claim that every even-position key maps to
the following value. -/
theorem C8_normalizer_counterexample :
    kvToObj (fun s : String => s) [OscArg.plain "", OscArg.plain "x"] "" ≠ some "x" := by
  rw [kvToObj, kvLoop_empty_key]
  simp

/-- Claim C8, amended: for every argument list, every NONEMPTY key at an
even position with a following value maps to the unwrapped following value
of the last such pair (keys coerced to string, values passed through
unwrapped, a trailing unpaired key dropped, last value wins on
duplicates); pairs whose key coerces to the empty string — a falsy key —
are dropped, so the record never carries the empty key. -/
theorem C8_normalizer_amended :
    (∀ (A : Type) (toStr : A → String) (xs : List (OscArg A)) (key : String), key ≠ "" →
      kvToObj toStr xs key = lastValueWins (kvPairsSpec toStr xs) key) ∧
    (∀ (A : Type) (toStr : A → String) (xs : List (OscArg A)),
      kvToObj toStr xs "" = none) := by
  constructor
  · intro A toStr xs key hk
    rw [kvToObj, kvLoop_lookup toStr xs _ key hk, Option.or_none]
  · intro A toStr xs
    rw [kvToObj, kvLoop_empty_key]

/-- Witness for C8 (amended): duplicate `cps` keys resolve to the last
value. -/
theorem C8_normalizer_amended_witness :
    kvToObj (fun s : String => s)
      [OscArg.plain "cps", OscArg.plain "0.5", OscArg.plain "cps", OscArg.plain "1.0"] "cps"
      = lastValueWins (kvPairsSpec (fun s : String => s)
          [OscArg.plain "cps", OscArg.plain "0.5", OscArg.plain "cps", OscArg.plain "1.0"]) "cps" :=
  C8_normalizer_amended.1 String (fun s => s) _ "cps" (by simp)

/-! ### Claim C9: transport error rate limiting -/

theorem errHandlerTrace_spec (es : List ErrEvent) (lastAt : ℚ)
    (hpos : ∀ e ∈ es, 0 < e.timeMs) :
    ((errHandlerTrace lastAt es).Pairwise
      (fun a b => a.2.1 = true → b.2.1 = true → 2000 < b.1.timeMs - a.1.timeMs)) ∧
    (∀ x ∈ errHandlerTrace lastAt es, x.2.1 = true →
      (lastAt = 0 ∨ 2000 < x.1.timeMs - lastAt)) ∧
    (∀ x ∈ errHandlerTrace lastAt es,
      (x.1.headerNoise = false → x.2.1 = false ∧ x.2.2 = true) ∧
      (x.2.1 = true → x.1.headerNoise = true)) := by
  induction es generalizing lastAt with
  | nil => simp [errHandlerTrace]
  | cons e rest ih =>
    have hposRest : ∀ x ∈ rest, 0 < x.timeMs :=
      fun x hx => hpos x (List.mem_cons_of_mem e hx)
    have hposE : 0 < e.timeMs := hpos e (List.mem_cons_self e rest)
    by_cases hn : e.headerNoise = true
    · by_cases hcond : lastAt = 0 ∨ 2000 < e.timeMs - lastAt
      · have hstep : errHandlerStep lastAt e = (e.timeMs, true, false) := by
          simp [errHandlerStep, hn, hcond]
        obtain ⟨ihPair, ihGap, ihCls⟩ := ih e.timeMs hposRest
        rw [errHandlerTrace, hstep]
        refine ⟨List.Pairwise.cons ?_ ihPair, ?_, ?_⟩
        · intro b hb _ hbw
          rcases ihGap b hb hbw with h0 | hgt
          · exact absurd h0 (ne_of_gt hposE)
          · exact hgt
        · intro x hx hxw
          rcases List.mem_cons.mp hx with rfl | hx2
          · exact hcond
          · rcases ihGap x hx2 hxw with h0 | hgt
            · exact absurd h0 (ne_of_gt hposE)
            · rcases hcond with h0 | hgap
              · exact Or.inl h0
              · exact Or.inr (by linarith)
        · intro x hx
          rcases List.mem_cons.mp hx with rfl | hx2
          · exact ⟨fun hf => absurd ((show e.headerNoise = false from hf).symm.trans hn)
              Bool.false_ne_true, fun _ => hn⟩
          · exact ihCls x hx2
      · have hstep : errHandlerStep lastAt e = (lastAt, false, false) := by
          simp only [errHandlerStep, if_pos hn, if_neg hcond]
        obtain ⟨ihPair, ihGap, ihCls⟩ := ih lastAt hposRest
        rw [errHandlerTrace, hstep]
        refine ⟨List.Pairwise.cons ?_ ihPair, ?_, ?_⟩
        · intro b _ hfalse
          exact absurd hfalse Bool.false_ne_true
        · intro x hx hxw
          rcases List.mem_cons.mp hx with rfl | hx2
          · exact absurd hxw Bool.false_ne_true
          · exact ihGap x hx2 hxw
        · intro x hx
          rcases List.mem_cons.mp hx with rfl | hx2
          · exact ⟨fun hf => absurd ((show e.headerNoise = false from hf).symm.trans hn)
              Bool.false_ne_true, fun hw => absurd hw Bool.false_ne_true⟩
          · exact ihCls x hx2
    · have hn2 : e.headerNoise = false := Bool.not_eq_true _ ▸ hn
      have hstep : errHandlerStep lastAt e = (lastAt, false, true) := by
        simp [errHandlerStep, hn2]
      obtain ⟨ihPair, ihGap, ihCls⟩ := ih lastAt hposRest
      rw [errHandlerTrace, hstep]
      refine ⟨List.Pairwise.cons ?_ ihPair, ?_, ?_⟩
      · intro b _ hfalse
        exact absurd hfalse Bool.false_ne_true
      · intro x hx hxw
        rcases List.mem_cons.mp hx with rfl | hx2
        · exact absurd hxw Bool.false_ne_true
        · exact ihGap x hx2 hxw
      · intro x hx
        rcases List.mem_cons.mp hx with rfl | hx2
        · exact ⟨fun _ => ⟨rfl, rfl⟩, fun hw => absurd hw Bool.false_ne_true⟩
        · exact ihCls x hx2

/-- Claim C9: over any sequence of transport error events with positive
wall-clock times, any two warnings emitted for the header-validation noise
pattern are separated by strictly more than 2000 ms — so at most one
warning falls in any 2-second window, whatever the volume of noise — while
every error not matching the pattern is logged immediately (and never as a
rate-limited warning).  The handler is embedded as a total function, the
never-throws part of the claim. -/
theorem C9_error_rate_limit (es : List ErrEvent) (hpos : ∀ e ∈ es, 0 < e.timeMs) :
    ((errHandlerTrace 0 es).Pairwise
      (fun a b => a.2.1 = true → b.2.1 = true → 2000 < b.1.timeMs - a.1.timeMs)) ∧
    (∀ x ∈ errHandlerTrace 0 es,
      (x.1.headerNoise = false → x.2.1 = false ∧ x.2.2 = true) ∧
      (x.2.1 = true → x.1.headerNoise = true)) :=
  ⟨(errHandlerTrace_spec es 0 hpos).1, (errHandlerTrace_spec es 0 hpos).2.2⟩

/-- Witness for C9: a concrete burst — two noise errors 500 ms apart and
one genuine error. -/
theorem C9_error_rate_limit_witness :
    ((errHandlerTrace 0 [⟨true, 1000⟩, ⟨true, 1500⟩, ⟨false, 1600⟩]).Pairwise
      (fun a b => a.2.1 = true → b.2.1 = true → 2000 < b.1.timeMs - a.1.timeMs)) ∧
    (∀ x ∈ errHandlerTrace 0 [⟨true, 1000⟩, ⟨true, 1500⟩, ⟨false, 1600⟩],
      (x.1.headerNoise = false → x.2.1 = false ∧ x.2.2 = true) ∧
      (x.2.1 = true → x.1.headerNoise = true)) :=
  C9_error_rate_limit [⟨true, 1000⟩, ⟨true, 1500⟩, ⟨false, 1600⟩] (by norm_num)

end PulsarPunctual
